import Mathlib

/-!
Verification of the pyinsteon ALDB synchronization subsystem.

This file gives a shallow embedding of the database-synchronization code:
the device ALDB read manager (`aldb/read_manager.py`), the modem ALDB read
manager (`aldb/im_read_manager.py`), the direct-command handshake handler
(`handlers/direct_command.py`) and the operating-flags manager
(`managers/get_set_op_flag_manager.py`).  Collaborator classes that are not
part of the four source modules (the `ALDB` / `ModemALDB` mirror containers,
`ControlFlags`, the operating-flag value objects and the `ResponseStatus`
constants) are modelled from the specification and are marked as such in
their doc comments.
-/

set_option maxHeartbeats 1000000
set_option linter.unusedVariables false

namespace Pyinsteon

/-- Modelled from the spec: result states of the handshake primitive
(`constants.py` is not in the source set).  The spec lists the outcomes
`SUCCESS`, `FAILURE` and `UNSENT`/`TIMEOUT`. -/
inductive ResponseStatus where
  | success
  | failure
  | unsent
deriving DecidableEq, Repr

/-- Modelled from the spec: a record's control flags are "bit-decoded:
in-use, controller-vs-responder, high-water-mark sentinel, two reserved
bits" (`aldb/control_flags.py` is not in the source set). -/
structure ControlFlags where
  is_in_use : Bool
  is_controller : Bool
  is_high_water_mark : Bool
  bit5 : Bool
  bit4 : Bool
deriving DecidableEq, Repr

/-- Modelled from the spec: decode a control-flags byte.  The spec fixes the
decoded fields but not the bit positions; the standard Insteon layout is
used (bit 7 in-use, bit 6 controller, bit 1 clear marks the high-water-mark
sentinel, bits 5 and 4 reserved). -/
def create_from_byte (b : Nat) : ControlFlags :=
  { is_in_use := b &&& (1 <<< 7) ≠ 0
    is_controller := b &&& (1 <<< 6) ≠ 0
    is_high_water_mark := b &&& (1 <<< 1) = 0
    bit5 := b &&& (1 <<< 5) ≠ 0
    bit4 := b &&& (1 <<< 4) ≠ 0 }

/-- Device identifiers are opaque to the synchronization subsystem. -/
abbrev Address := Nat

/-- An ALDB record: one 8-byte slot of the All-Link Database
(`aldb/aldb_record.py`; field names follow the source). -/
structure ALDBRecord where
  mem_addr : Int
  control_flags : ControlFlags
  group : Nat
  target : Address
  data1 : Nat
  data2 : Nat
  data3 : Nat
deriving DecidableEq, Repr

/-- Modelled from the spec: the device-side mirror (`ALDB`, from
`aldb/__init__.py`, not in the source set) is "a mapping from `mem_addr` to
`Record`, insertion order irrelevant, keys unique" with a `first_mem_addr`
field.  The mapping is represented as an association list. -/
structure ALDB where
  entries : List (Int × ALDBRecord)
  first_mem_addr : Int
deriving DecidableEq, Repr

/-- Keyed lookup, `self._aldb.get(mem_addr)` / `self._aldb[mem_addr]`. -/
def ALDB.get (a : ALDB) (k : Int) : Option ALDBRecord :=
  (a.entries.find? (fun p => p.1 == k)).map Prod.snd

/-- Keyed overwrite, `self._aldb[mem_addr] = record`:  duplicates simply
overwrite. -/
def ALDB.set (a : ALDB) (k : Int) (r : ALDBRecord) : ALDB :=
  { a with entries := (k, r) :: a.entries.filter (fun p => !(p.1 == k)) }

/-- Modelled from the spec: iterating the mirror (`for mem_addr in
self._aldb`) walks "mirror entries in descending address order". -/
def ALDB.iter (a : ALDB) : List (Int × ALDBRecord) :=
  List.insertionSort (fun p q => p.1 ≥ q.1) a.entries

/-- Modelled from the spec: the mirror's load-status predicate
(`ALDB.calc_load_status`) "is true iff a sentinel record exists and every
address from `first_mem_addr` down to the sentinel is present with stride
exactly 8". -/
def loadedWalk : List (Int × ALDBRecord) → Int → Bool
  | [], _ => false
  | (addr, rec) :: rest, expected =>
    if addr ≠ expected then false
    else if rec.control_flags.is_high_water_mark then true
    else loadedWalk rest (addr - 8)

/-- Modelled from the spec: `ALDB.calc_load_status`. -/
def ALDB.calc_load_status (a : ALDB) : Bool :=
  loadedWalk a.iter a.first_mem_addr

/-! ### Device ALDB read manager (`aldb/read_manager.py`) -/

def RETRIES_ALL_MAX : Nat := 5
def RETRIES_ONE_MAX : Nat := 20
def RETRIES_WRITE_MAX : Nat := 5
def TIMER : Nat := 10
def TIMER_INCREMENT : Nat := 3

/-- Last-issued command kind of the device read manager (constants
`READ_ALL = 1`, `READ_ONE = 2`, `WRITE = 3` in the source). -/
inductive LastCmd where
  | read_all
  | read_one
  | write
deriving DecidableEq, Repr

/-- Mutable state of `ALDBReadManager` relevant to the read algorithms:
the mirror, the per-kind retry counters and the last-attempted address. -/
structure ALDBReadManager where
  aldb : ALDB
  retries_all : Nat
  retries_one : Nat
  retries_write : Nat
  last_command : Option LastCmd
  last_mem_addr : Int
deriving DecidableEq, Repr

/-- Embedding of `ALDBReadManager._has_first_record`: the mirror is falsy
when empty; otherwise scan the iteration for a key equal to
`first_mem_addr` or to `0x0fff`. -/
def has_first_record (a : ALDB) : Bool :=
  if a.entries.isEmpty then false
  else a.iter.any (fun p => p.1 == a.first_mem_addr || p.1 == 0xfff)

/-- Embedding of the record-walking loop inside
`ALDBReadManager._next_missing_record`: `last_addr` starts at 0; a
high-water-mark record returns `None`; when a previous address exists
(`last_addr != 0`) and `last_addr - 8 != mem_addr`, return `last_addr - 8`;
after the loop return `last_addr - 8`. -/
def aldb_walk : List (Int × ALDBRecord) → Int → Option Int
  | [], last_addr => some (last_addr - 8)
  | (mem_addr, rec) :: rest, last_addr =>
    if rec.control_flags.is_high_water_mark then none
    else if last_addr ≠ 0 ∧ ¬(last_addr - 8 = mem_addr) then some (last_addr - 8)
    else aldb_walk rest mem_addr

/-- Embedding of `ALDBReadManager._next_missing_record`. -/
def next_missing_record (m : ALDBReadManager) : Option Int :=
  if has_first_record m.aldb = false then
    if m.last_mem_addr = 0 ∧ RETRIES_ONE_MAX ≤ m.retries_one then
      some m.aldb.first_mem_addr
    else some 0
  else aldb_walk m.aldb.iter 0

/-- Spec-side definition (from the claim's words): the mirror has an entry
at address `k`. -/
def hasEntryAt (a : ALDB) (k : Int) : Bool :=
  a.entries.any (fun p => p.1 == k)

/-- Spec-side definition (from the claim's words): walking after a first
entry whose address is `prev`: return `None` on a sentinel record, return
`prev - 8` at the first gap where an entry's address is not exactly 8 below
the previous entry's address, and `last_seen - 8` when no gap is found. -/
def spec_walk_from (prev : Int) : List (Int × ALDBRecord) → Option Int
  | [] => some (prev - 8)
  | (addr, rec) :: rest =>
    if rec.control_flags.is_high_water_mark then none
    else if ¬(addr = prev - 8) then some (prev - 8)
    else spec_walk_from addr rest

/-- Spec-side definition (from the claim's words): walk the mirror entries
in descending address order. -/
def spec_walk : List (Int × ALDBRecord) → Option Int
  | [] => some (0 - 8)
  | (addr, rec) :: rest =>
    if rec.control_flags.is_high_water_mark then none
    else spec_walk_from addr rest

/-- Spec-side definition (from the claim's words): the next-missing-address
computation as the claim states it. -/
def spec_next_missing_record (m : ALDBReadManager) : Option Int :=
  if hasEntryAt m.aldb m.aldb.first_mem_addr = false ∧
      hasEntryAt m.aldb 0xfff = false then
    if m.last_mem_addr = 0 ∧ RETRIES_ONE_MAX ≤ m.retries_one then
      some m.aldb.first_mem_addr
    else some 0
  else spec_walk m.aldb.iter

/-! ### C1: the next-missing-address computation -/

theorem any_of_perm {α : Type} {l₁ l₂ : List α} (h : l₁.Perm l₂) (p : α → Bool) :
    l₁.any p = l₂.any p := by
  cases hb : l₂.any p
  · rw [List.any_eq_false] at hb ⊢
    intro x hx
    exact hb x (h.mem_iff.mp hx)
  · rw [List.any_eq_true] at hb ⊢
    obtain ⟨x, hx, hpx⟩ := hb
    exact ⟨x, h.mem_iff.mpr hx, hpx⟩

theorem any_orb {α : Type} (l : List α) (p q : α → Bool) :
    l.any (fun x => p x || q x) = (l.any p || l.any q) := by
  induction l with
  | nil => rfl
  | cons a t ih =>
    simp only [List.any_cons, ih]
    cases p a <;> cases q a <;> simp

theorem has_first_record_eq (a : ALDB) :
    has_first_record a = (hasEntryAt a a.first_mem_addr || hasEntryAt a 0xfff) := by
  unfold has_first_record hasEntryAt ALDB.iter
  cases he : a.entries with
  | nil => simp
  | cons p t =>
    rw [any_of_perm (List.perm_insertionSort _ (p :: t)) _, any_orb]
    simp

theorem aldb_walk_eq_spec_from (l : List (Int × ALDBRecord)) (prev : Int)
    (hs : l.Pairwise (fun p q => q.1 < p.1)) (hn : ∀ p ∈ l, 0 ≤ p.1)
    (hprev : prev ≠ 0) :
    aldb_walk l prev = spec_walk_from prev l := by
  induction l generalizing prev with
  | nil => rfl
  | cons p t ih =>
    obtain ⟨addr, rec⟩ := p
    rw [aldb_walk, spec_walk_from]
    by_cases hw : rec.control_flags.is_high_water_mark
    · simp [hw]
    · by_cases hg : addr = prev - 8
      · have hcond : ¬(prev ≠ 0 ∧ ¬(prev - 8 = addr)) := by
          intro hc
          exact hc.2 hg.symm
        rw [if_neg hw, if_neg hcond, if_neg hw, if_neg (not_not_intro hg)]
        by_cases ha : addr = 0
        · subst ha
          cases t with
          | nil => rfl
          | cons q u =>
            exfalso
            have h1 : q.1 < 0 := (List.pairwise_cons.mp hs).1 q (List.mem_cons_self q u)
            have h2 : 0 ≤ q.1 := hn q (List.mem_cons_of_mem _ (List.mem_cons_self q u))
            omega
        · exact ih addr (List.pairwise_cons.mp hs).2
            (fun r hr => hn r (List.mem_cons_of_mem _ hr)) ha
      · have hcond : prev ≠ 0 ∧ ¬(prev - 8 = addr) := ⟨hprev, fun h => hg h.symm⟩
        rw [if_neg hw, if_pos hcond, if_neg hw, if_pos hg]

theorem aldb_walk_eq_spec (l : List (Int × ALDBRecord))
    (hs : l.Pairwise (fun p q => q.1 < p.1)) (hn : ∀ p ∈ l, 0 ≤ p.1) :
    aldb_walk l 0 = spec_walk l := by
  cases l with
  | nil => rfl
  | cons p t =>
    obtain ⟨addr, rec⟩ := p
    rw [aldb_walk, spec_walk]
    by_cases hw : rec.control_flags.is_high_water_mark
    · simp [hw]
    · have hcond : ¬((0 : Int) ≠ 0 ∧ ¬((0 : Int) - 8 = addr)) := by
        intro hc
        exact hc.1 rfl
      rw [if_neg hw, if_neg hcond, if_neg hw]
      by_cases ha : addr = 0
      · subst ha
        cases t with
        | nil => rfl
        | cons q u =>
          exfalso
          have h1 : q.1 < 0 := (List.pairwise_cons.mp hs).1 q (List.mem_cons_self q u)
          have h2 : 0 ≤ q.1 := hn q (List.mem_cons_of_mem _ (List.mem_cons_self q u))
          omega
      · exact aldb_walk_eq_spec_from t addr (List.pairwise_cons.mp hs).2
          (fun r hr => hn r (List.mem_cons_of_mem _ hr)) ha

/-- C1: for every device mirror state whose iteration is strictly descending
over non-negative addresses, `ALDBReadManager._next_missing_record` behaves
as the claim states: if the mirror has no entry at the table's first address
and none at the fallback address `0x0fff`, it returns `0x0000` (or the
nominal first address when the single-record retry budget against `0x0000`
is exhausted); otherwise, walking mirror entries in descending address
order, it returns no missing address on the high-water-mark sentinel,
returns `previous_address - 8` at the first stride-8 gap, and returns
`last_seen_address - 8` when no gap is found. -/
theorem claim_C1_next_missing_record (m : ALDBReadManager)
    (hs : m.aldb.iter.Pairwise (fun p q => q.1 < p.1))
    (hn : ∀ p ∈ m.aldb.iter, 0 ≤ p.1) :
    next_missing_record m = spec_next_missing_record m := by
  unfold next_missing_record spec_next_missing_record
  rw [has_first_record_eq]
  cases hA : hasEntryAt m.aldb m.aldb.first_mem_addr <;>
    cases hB : hasEntryAt m.aldb 0xfff <;>
      simp [hA, hB, aldb_walk_eq_spec m.aldb.iter hs hn]

/-- Control flags of an ordinary in-use record. -/
def cfMid : ControlFlags := ⟨true, true, false, false, false⟩

/-- An ordinary record at address `k`. -/
def recAt (k : Int) : ALDBRecord := ⟨k, cfMid, 1, 2, 3, 4, 5⟩

/-- Concrete mirror with records at `0x0fff` and `0x0ff7` and a gap below. -/
def w1aldb : ALDB := ⟨[(0xfff, recAt 0xfff), (0xff7, recAt 0xff7)], 0xfff⟩

/-- Concrete manager state for the C1 witness. -/
def w1mgr : ALDBReadManager := ⟨w1aldb, 0, 0, 0, none, 0⟩

/-- Witness for C1 at a concrete mirror. -/
theorem claim_C1_witness :
    next_missing_record w1mgr = spec_next_missing_record w1mgr :=
  claim_C1_next_missing_record w1mgr (by decide) (by decide)

/-! ### C3: key-record consistency of the device mirror -/

/-- Embedding of `ALDBReadManager._receive_record`: the received record is
written into the mirror keyed by its own `mem_addr`; inspection of
`read_manager.py` shows this is the only statement that mutates the mirror. -/
def receive_record (a : ALDB) (is_response : Bool) (record : ALDBRecord) : ALDB :=
  a.set record.mem_addr record

/-- Delivery of a whole sequence of records to the device mirror (each one
arrives with `is_response = True`; the handler ignores the flag). -/
def deliver_all (a : ALDB) (rs : List ALDBRecord) : ALDB :=
  rs.foldl (fun acc r => receive_record acc true r) a

/-- Key-record consistency: for every key present in the mirror, looking the
key up yields a record whose `mem_addr` is that key. -/
def consistent (a : ALDB) : Bool :=
  a.entries.all (fun p => (a.get p.1).map ALDBRecord.mem_addr == some p.1)

theorem find?_filter_of_imp {α : Type} (l : List α) (p q : α → Bool)
    (h : ∀ x, p x = true → q x = true) :
    (l.filter q).find? p = l.find? p := by
  induction l with
  | nil => rfl
  | cons a t ih =>
    by_cases hq : q a = true
    · rw [List.filter_cons_of_pos hq]
      by_cases hp : p a = true
      · rw [List.find?_cons_of_pos _ hp, List.find?_cons_of_pos _ hp]
      · have hp' : p a = false := Bool.eq_false_iff.mpr hp
        rw [List.find?_cons_of_neg _ (by simp [hp']),
          List.find?_cons_of_neg _ (by simp [hp']), ih]
    · have hq' : q a = false := Bool.eq_false_iff.mpr hq
      have hp' : p a = false := by
        cases hpa : p a
        · rfl
        · exact absurd (h a hpa) (by simp [hq'])
      rw [List.filter_cons_of_neg (by simp [hq']), ih,
        List.find?_cons_of_neg _ (by simp [hp'])]

theorem ALDB.get_set (a : ALDB) (k : Int) (r : ALDBRecord) (k' : Int) :
    (a.set k r).get k' = if k' = k then some r else a.get k' := by
  unfold ALDB.get ALDB.set
  by_cases hk : k' = k
  · subst hk
    rw [if_pos rfl, List.find?_cons_of_pos _ (by simp)]
    rfl
  · rw [if_neg hk, List.find?_cons_of_neg _ (by simp [Ne.symm hk]),
      find?_filter_of_imp]
    intro x hx
    have hx1 : x.1 = k' := by simpa using hx
    simp [hx1, hk]

theorem ALDB.set_entries (a : ALDB) (k : Int) (r : ALDBRecord) :
    (a.set k r).entries = (k, r) :: a.entries.filter (fun p => !(p.1 == k)) := rfl

theorem consistent_set (a : ALDB) (r : ALDBRecord) (h : consistent a = true) :
    consistent (a.set r.mem_addr r) = true := by
  rw [consistent, List.all_eq_true]
  rw [consistent, List.all_eq_true] at h
  intro p hp
  rw [ALDB.set_entries] at hp
  rcases List.mem_cons.mp hp with hp1 | hp2
  · subst hp1
    simp [ALDB.get_set]
  · have hmem := (List.mem_filter.mp hp2).1
    have hne : p.1 ≠ r.mem_addr := by
      simpa using (List.mem_filter.mp hp2).2
    rw [ALDB.get_set, if_neg hne]
    exact h p hmem

theorem consistent_deliver_all (a : ALDB) (rs : List ALDBRecord)
    (h : consistent a = true) : consistent (deliver_all a rs) = true := by
  induction rs generalizing a with
  | nil => exact h
  | cons r t ih =>
    simp only [deliver_all, List.foldl_cons]
    exact ih (receive_record a true r) (consistent_set a r h)

/-! ### Modem ALDB read manager (`aldb/im_read_manager.py`) -/

/-- Modelled from the spec: the modem-side mirror (`ModemALDB`, from
`aldb/__init__.py`, not in the source set): a keyed mapping plus
`last_mem_addr`, "the lowest address written so far — updated by the modem
manager after each append". -/
structure ModemALDB where
  entries : List (Int × ALDBRecord)
  last_mem_addr : Int
deriving Repr

/-- Keyed lookup on the modem mirror. -/
def ModemALDB.get (a : ModemALDB) (k : Int) : Option ALDBRecord :=
  (a.entries.find? (fun p => p.1 == k)).map Prod.snd

/-- Keyed assignment on the modem mirror; appending a record at address `k`
moves `last_mem_addr` down to `k`. -/
def ModemALDB.set (a : ModemALDB) (k : Int) (r : ALDBRecord) : ModemALDB :=
  { entries := (k, r) :: a.entries.filter (fun p => !(p.1 == k)),
    last_mem_addr := k }

/-- Embedding of `ImReadManager._receive_record`: compute
`next_mem_addr = last_mem_addr - 8`, decode the control byte, build the
record from the payload fields, store it in the mirror, and issue the next
get-next request.  The returned flag records that `_get_next_record` was
invoked.  (In the source the handler is a plain `def` containing `await
self._get_next_record()`; the spec notes this sync/async mismatch in §9 —
the data flow embedded here is the one written in the handler body.) -/
def im_receive_record (aldb : ModemALDB) (flags : Nat) (group : Nat)
    (address : Address) (data1 data2 data3 : Nat) : ModemALDB × Bool :=
  let next_mem_addr := aldb.last_mem_addr - 8
  let control_flags := create_from_byte flags
  let record : ALDBRecord :=
    ⟨next_mem_addr, control_flags, group, address, data1, data2, data3⟩
  (aldb.set next_mem_addr record, true)

/-- Embedding of `ImReadManager._max_retries`: `self._retries >= 3`. -/
def im_max_retries (retries : Nat) : Bool :=
  decide (3 ≤ retries)

/-- Loop state of `ImReadManager._get_next_record` after `n` iterations,
where attempt `i` of `self._get_next_handler.async_send()` returns
`send i`: starting from `response = False` and `self._retries = 0`, each
iteration that passes the guard `not response and not self._max_retries()`
stores the send result and then runs `self._retries += 0` (the statement as
written in the source). -/
def get_next_iterate (send : Nat → Bool) : Nat → Bool × Nat
  | 0 => (false, 0)
  | n + 1 =>
    let s := get_next_iterate send n
    if !s.1 && !(im_max_retries s.2) then (send n, s.2 + 0) else s

/-- Loop state of the get-first retry loop in `ImReadManager.async_load`
after `n` iterations: `response = False`, `self._retries = 0`, then
`while not response and not self._max_retries(): response = await
self._get_first_handler.async_send(); self._retries += 1`. -/
def im_load_loop (send : Nat → Bool) : Nat → Bool × Nat
  | 0 => (false, 0)
  | n + 1 =>
    let s := im_load_loop send n
    if !s.1 && !(im_max_retries s.2) then (send s.2, s.2 + 1) else s

/-- Embedding of `ImReadManager.async_load` for terminating executions: run
the get-first retry loop (it reaches a fixed point within 3 iterations,
since every iteration increments `_retries` and `_max_retries` is
`_retries >= 3`), then — after the completion-gate rendezvous, which does
not touch the return value — return `ResponseStatus.SUCCESS`
unconditionally, exactly as the final statement of the source does.  The
result is the returned status together with the loop's final
`(response, retries)` state. -/
def im_async_load (send : Nat → Bool) : ResponseStatus × Bool × Nat :=
  (ResponseStatus.success, im_load_loop send 3)

/-! ### Direct-command handler (`handlers/direct_command.py`) -/

/-- Atomic lock operations of `DirectCommandHandlerBase.async_send` on its
response lock. -/
inductive DCAction where
  | acquire
  | release
  | send_cmd
deriving DecidableEq, Repr

/-- Lock-action trace of `DirectCommandHandlerBase.async_send`, read off
the source: if the response lock is locked, release it; then acquire it;
then run the inner send (`super().async_send`); then release the lock. -/
def direct_send_actions (locked : Bool) : List DCAction :=
  (if locked then [DCAction.release] else []) ++
    [DCAction.acquire, DCAction.send_cmd, DCAction.release]

/-- Single-task semantics of `asyncio.Lock`: `acquire` on a held lock
suspends the caller (modelled as `none`, i.e. the call queues instead of
proceeding), `release` of an unlocked lock raises (also `none`); otherwise
execution continues with the updated lock state. -/
def runLockActions : Bool → List DCAction → Option Bool
  | b, [] => some b
  | b, DCAction.acquire :: rest => if b then none else runLockActions true rest
  | b, DCAction.release :: rest => if b then runLockActions false rest else none
  | b, DCAction.send_cmd :: rest => runLockActions b rest

/-! ### Claim theorems C5, C6, C7, C10 -/

/-- C5: for every confirmed record delivered to the modem ALDB read
manager, the stored record sits at `last_mem_addr - 8`, its own `mem_addr`
equals that address, it is constructed from the decoded control byte,
group, target address and the three data bytes, and a get-next request is
issued immediately afterwards. -/
theorem claim_C5_im_receive_record (aldb : ModemALDB) (flags group : Nat)
    (address : Address) (d1 d2 d3 : Nat) :
    (im_receive_record aldb flags group address d1 d2 d3).1.get
        (aldb.last_mem_addr - 8) =
      some ⟨aldb.last_mem_addr - 8, create_from_byte flags, group, address,
        d1, d2, d3⟩ ∧
    (im_receive_record aldb flags group address d1 d2 d3).2 = true := by
  constructor
  · unfold im_receive_record ModemALDB.get ModemALDB.set
    rw [List.find?_cons_of_pos _ (by simp)]
    rfl
  · rfl

/-- C6 (code bug): in a run of `ImReadManager._get_next_record` in which
every send fails, the loop state after any number of iterations is still
`(response = False, retries = 0)` — the statement `self._retries += 0`
never advances the counter — so the guard never fails, the max-retries
condition is never reached, and the gate-releasing step after the loop is
never executed; the claimed 3-attempt bound does not hold. -/
theorem claim_C6_get_next_counter_stuck (send : Nat → Bool)
    (h : ∀ i, send i = false) (n : Nat) :
    get_next_iterate send n = (false, 0) ∧
      im_max_retries (get_next_iterate send n).2 = false := by
  induction n with
  | zero => exact ⟨rfl, rfl⟩
  | succ m ih =>
    have hstep : get_next_iterate send (m + 1) = (false, 0) := by
      rw [get_next_iterate, ih.1, h m]
      rfl
    exact ⟨hstep, by rw [hstep]; rfl⟩

/-- Witness for C6: after 4 iterations with all sends failing (one past the
claimed 3-attempt budget) the counter is still 0 and max-retries is false. -/
theorem claim_C6_witness :
    get_next_iterate (fun _ => false) 4 = (false, 0) ∧
      im_max_retries (get_next_iterate (fun _ => false) 4).2 = false :=
  claim_C6_get_next_counter_stuck (fun _ => false) (fun _ => rfl) 4

/-- C7: a call to `DirectCommandHandlerBase.async_send` made while the
response lock is held first releases the lock (superseding the earlier
exchange instead of queueing behind it: its action trace starts with a
release, and the run never suspends), and every call leaves the lock
released after the send result is obtained. -/
theorem claim_C7_direct_send_supersedes (locked : Bool) :
    runLockActions locked (direct_send_actions locked) = some false ∧
      (locked = true →
        (direct_send_actions locked).head? = some DCAction.release) := by
  cases locked <;> simp [direct_send_actions, runLockActions]

/-- Witness for C7 at a held lock. -/
theorem claim_C7_witness :
    runLockActions true (direct_send_actions true) = some false ∧
      (direct_send_actions true).head? = some DCAction.release :=
  ⟨(claim_C7_direct_send_supersedes true).1,
    (claim_C7_direct_send_supersedes true).2 rfl⟩

/-- C10: every terminating execution of `ImReadManager.async_load` returns
`ResponseStatus.SUCCESS`; in particular, when every get-first send fails,
the final loop state still has no acknowledged response, yet the returned
status is the same `SUCCESS`. -/
theorem claim_C10_async_load_always_success (send : Nat → Bool) :
    (im_async_load send).1 = ResponseStatus.success ∧
      ((∀ i, send i = false) → (im_async_load send).2.1 = false) := by
  refine ⟨rfl, fun h => ?_⟩
  simp [im_async_load, im_load_loop, im_max_retries, h]

/-- Witness for C10 with every get-first send failing. -/
theorem claim_C10_witness :
    (im_async_load (fun _ => false)).1 = ResponseStatus.success ∧
      (im_async_load (fun _ => false)).2.1 = false :=
  ⟨(claim_C10_async_load_always_success (fun _ => false)).1,
    (claim_C10_async_load_always_success (fun _ => false)).2 (fun _ => rfl)⟩

/-! ### Operational model of the device read manager

The coroutines of `read_manager.py` are embedded as a labelled transition
system.  A task is one invocation of `async_read`, tracked by the
suspension point it sits at; the code between two suspension points runs
atomically, as it does on the asyncio event loop.  Watchdog timers
(`_timer`) are tracked by the pending `(mem_addr, num_recs)` arguments; a
timer may fire at any step once scheduled.  The completion gate
(`self._load_lock`) is a plain `asyncio.Lock`: `acquire` proceeds only when
the lock is free, `release` frees it. -/

/-- Suspension points of `ALDBReadManager.async_read`. -/
inductive TaskPc where
  | atAcquire1
  | atSend
  | atAcquire2
  | finished
deriving DecidableEq, Repr

/-- One `async_read(mem_addr, num_recs)` invocation. -/
structure RTask where
  pc : TaskPc
  mem_addr : Int
  num_recs : Int
deriving DecidableEq, Repr

/-- Whole-system state of one `ALDBReadManager` with its pending tasks,
pending watchdog timers, completion gate, and a count of gate releases. -/
structure DevSys where
  tasks : List RTask
  timers : List (Int × Int)
  lock : Bool
  releases : Nat
  mgr : ALDBReadManager
deriving DecidableEq, Repr

/-- Release the completion gate (`self._load_lock.release()`). -/
def releaseGate (s : DevSys) : DevSys :=
  { s with
    lock := false
    releases := s.releases + 1 }

/-- Embedding of `self.read(mem_addr, num_recs)`: schedule a new
`async_read` task; it starts at the first gate acquisition. -/
def spawnRead (s : DevSys) (mem_addr num_recs : Int) : DevSys :=
  { s with tasks := s.tasks ++ [⟨TaskPc.atAcquire1, mem_addr, num_recs⟩] }

/-- Embedding of `ALDBReadManager._manage_get_all_cmd`. -/
def manage_get_all (s : DevSys) (mem_addr num_recs : Int) : DevSys :=
  if s.mgr.aldb.calc_load_status then releaseGate s
  else if s.mgr.retries_all < RETRIES_ALL_MAX then
    let s1 := spawnRead s 0 0
    { s1 with mgr := { s1.mgr with retries_all := s1.mgr.retries_all + 1 } }
  else
    match next_missing_record s.mgr with
    | none => s
    | some next_mem_addr =>
      if next_mem_addr = s.mgr.last_mem_addr then
        if s.mgr.retries_one < RETRIES_ONE_MAX then
          let s1 := spawnRead s next_mem_addr 1
          { s1 with mgr := { s1.mgr with retries_one := s1.mgr.retries_one + 1 } }
        else releaseGate s
      else
        let s1 := { s with mgr :=
          { s.mgr with
            last_mem_addr := next_mem_addr
            retries_one := 0 } }
        spawnRead s1 next_mem_addr num_recs

/-- Embedding of `ALDBReadManager._manage_get_one_cmd`. -/
def manage_get_one (s : DevSys) (mem_addr num_recs : Int) : DevSys :=
  if (s.mgr.aldb.get mem_addr).isSome then releaseGate s
  else if s.mgr.retries_one < RETRIES_ONE_MAX then spawnRead s mem_addr num_recs
  else releaseGate s

/-- Embedding of the dispatch in `ALDBReadManager._timer`: after the sleep,
run the READ_ALL manager when `self._last_command == READ_ALL`, otherwise
the READ_ONE manager. -/
def timer_dispatch (s : DevSys) (mem_addr num_recs : Int) : DevSys :=
  if s.mgr.last_command = some LastCmd.read_all then
    manage_get_all s mem_addr num_recs
  else manage_get_one s mem_addr num_recs

/-- Events: a scheduler step of the tasks already in the system, or the
out-of-band delivery of a record by the read handler. -/
inductive DevEvent where
  | sched
  | recv (record : ALDBRecord)

/-- Small-step semantics of the device read manager.  `acquire1` is the
atomic segment of `async_read` from a granted first gate acquisition up to
the `async_send` suspension (it records `_last_command`); `sendReturn` is
the segment after the send resolves, which schedules the watchdog and
suspends at the second acquisition; `acquire2` completes the call when the
gate is granted again; `timerFire` runs a due watchdog; `recvRecord` is the
asynchronous record delivery of `_receive_record`. -/
inductive DevStep : DevSys → DevEvent → DevSys → Prop where
  | acquire1 (s : DevSys) (i : Nat) (t : RTask)
      (hget : s.tasks.get? i = some t)
      (hpc : t.pc = TaskPc.atAcquire1)
      (hlock : s.lock = false) :
      DevStep s DevEvent.sched
        { s with
          lock := true
          tasks := s.tasks.set i { t with pc := TaskPc.atSend }
          mgr := { s.mgr with
            last_command := some (if t.mem_addr = 0 ∧ t.num_recs = 0 then
              LastCmd.read_all else LastCmd.read_one) } }
  | sendReturn (s : DevSys) (i : Nat) (t : RTask)
      (hget : s.tasks.get? i = some t)
      (hpc : t.pc = TaskPc.atSend) :
      DevStep s DevEvent.sched
        { s with
          tasks := s.tasks.set i { t with pc := TaskPc.atAcquire2 }
          timers := s.timers ++ [(t.mem_addr, t.num_recs)] }
  | acquire2 (s : DevSys) (i : Nat) (t : RTask)
      (hget : s.tasks.get? i = some t)
      (hpc : t.pc = TaskPc.atAcquire2)
      (hlock : s.lock = false) :
      DevStep s DevEvent.sched
        { s with
          lock := true
          tasks := s.tasks.set i { t with pc := TaskPc.finished } }
  | timerFire (s : DevSys) (j : Nat) (mn : Int × Int)
      (hget : s.timers.get? j = some mn) :
      DevStep s DevEvent.sched
        (timer_dispatch { s with timers := s.timers.eraseIdx j } mn.1 mn.2)
  | recvRecord (s : DevSys) (record : ALDBRecord) :
      DevStep s (DevEvent.recv record)
        { s with mgr :=
          { s.mgr with aldb := receive_record s.mgr.aldb true record } }

/-- Initial state: a fresh manager whose caller has just invoked
`async_read(0, 0)` (the bulk read): one task pending at the first gate
acquisition, no timers, gate free, empty mirror. -/
def devInit : DevSys :=
  { tasks := [⟨TaskPc.atAcquire1, 0, 0⟩],
    timers := [],
    lock := false,
    releases := 0,
    mgr := { aldb := ⟨[], 0xfff⟩, retries_all := 0, retries_one := 0,
             retries_write := 0, last_command := none, last_mem_addr := 0 } }

/-- States reachable from `devInit` by scheduler steps alone — a read
sequence during which no record is ever received. -/
inductive ReachNR : DevSys → Prop where
  | init : ReachNR devInit
  | step (s s' : DevSys) : ReachNR s → DevStep s DevEvent.sched s' → ReachNR s'

/-- State after the caller's task passes the first gate acquisition. -/
def devS1 : DevSys :=
  { devInit with
    lock := true
    tasks := [⟨TaskPc.atSend, 0, 0⟩]
    mgr := { devInit.mgr with last_command := some LastCmd.read_all } }

/-- State after the bulk send resolves and the watchdog is scheduled. -/
def devS2 : DevSys :=
  { devS1 with
    tasks := [⟨TaskPc.atAcquire2, 0, 0⟩]
    timers := [(0, 0)] }

/-- State after the single watchdog firing: the bulk read was re-issued as
a new task (stuck at the held gate) and `_retries_all` became 1. -/
def devS3 : DevSys :=
  { devS2 with
    timers := []
    tasks := [⟨TaskPc.atAcquire2, 0, 0⟩, ⟨TaskPc.atAcquire1, 0, 0⟩]
    mgr := { devS2.mgr with retries_all := 1 } }

theorem get?_singleton {α : Type} (a : α) (i : Nat) (t : α)
    (h : [a].get? i = some t) : i = 0 ∧ t = a := by
  cases i with
  | zero => exact ⟨rfl, (Option.some.inj h).symm⟩
  | succ n => exact Option.noConfusion h

theorem get?_pair {α : Type} (a b : α) (i : Nat) (t : α)
    (h : [a, b].get? i = some t) : t = a ∨ t = b := by
  cases i with
  | zero => exact Or.inl (Option.some.inj h).symm
  | succ n =>
    cases n with
    | zero => exact Or.inr (Option.some.inj h).symm
    | succ m => exact Option.noConfusion h

/-- The mirror is only written by record delivery: `_manage_get_all_cmd`
never touches it. -/
theorem manage_get_all_aldb (s : DevSys) (mem_addr num_recs : Int) :
    (manage_get_all s mem_addr num_recs).mgr.aldb = s.mgr.aldb := by
  unfold manage_get_all releaseGate spawnRead
  repeat' split
  all_goals rfl

/-- The mirror is only written by record delivery: `_manage_get_one_cmd`
never touches it. -/
theorem manage_get_one_aldb (s : DevSys) (mem_addr num_recs : Int) :
    (manage_get_one s mem_addr num_recs).mgr.aldb = s.mgr.aldb := by
  unfold manage_get_one releaseGate spawnRead
  repeat' split
  all_goals rfl

/-- The watchdog dispatch never touches the mirror. -/
theorem timer_dispatch_aldb (s : DevSys) (mem_addr num_recs : Int) :
    (timer_dispatch s mem_addr num_recs).mgr.aldb = s.mgr.aldb := by
  unfold timer_dispatch
  split
  · exact manage_get_all_aldb s mem_addr num_recs
  · exact manage_get_one_aldb s mem_addr num_recs

/-- Shape of `_manage_get_all_cmd`: it either keeps the task list or
appends one freshly spawned `async_read` task parked at the first gate
acquisition, and it either leaves the gate and release count alone or
performs exactly one release. -/
theorem manage_get_all_shape (s : DevSys) (mem_addr num_recs : Int) :
    ((manage_get_all s mem_addr num_recs).tasks = s.tasks ∨
      ∃ m2 n2, (manage_get_all s mem_addr num_recs).tasks =
        s.tasks ++ [⟨TaskPc.atAcquire1, m2, n2⟩]) ∧
    (((manage_get_all s mem_addr num_recs).lock = s.lock ∧
        (manage_get_all s mem_addr num_recs).releases = s.releases) ∨
      ((manage_get_all s mem_addr num_recs).lock = false ∧
        (manage_get_all s mem_addr num_recs).releases = s.releases + 1)) := by
  unfold manage_get_all releaseGate spawnRead
  repeat' split
  all_goals first
    | exact ⟨Or.inl rfl, Or.inl ⟨rfl, rfl⟩⟩
    | exact ⟨Or.inl rfl, Or.inr ⟨rfl, rfl⟩⟩
    | exact ⟨Or.inr ⟨_, _, rfl⟩, Or.inl ⟨rfl, rfl⟩⟩

/-- Shape of `_manage_get_one_cmd` (same statement). -/
theorem manage_get_one_shape (s : DevSys) (mem_addr num_recs : Int) :
    ((manage_get_one s mem_addr num_recs).tasks = s.tasks ∨
      ∃ m2 n2, (manage_get_one s mem_addr num_recs).tasks =
        s.tasks ++ [⟨TaskPc.atAcquire1, m2, n2⟩]) ∧
    (((manage_get_one s mem_addr num_recs).lock = s.lock ∧
        (manage_get_one s mem_addr num_recs).releases = s.releases) ∨
      ((manage_get_one s mem_addr num_recs).lock = false ∧
        (manage_get_one s mem_addr num_recs).releases = s.releases + 1)) := by
  unfold manage_get_one releaseGate spawnRead
  repeat' split
  all_goals first
    | exact ⟨Or.inl rfl, Or.inl ⟨rfl, rfl⟩⟩
    | exact ⟨Or.inl rfl, Or.inr ⟨rfl, rfl⟩⟩
    | exact ⟨Or.inr ⟨_, _, rfl⟩, Or.inl ⟨rfl, rfl⟩⟩

/-- Shape of the watchdog dispatch (same statement). -/
theorem timer_dispatch_shape (s : DevSys) (mem_addr num_recs : Int) :
    ((timer_dispatch s mem_addr num_recs).tasks = s.tasks ∨
      ∃ m2 n2, (timer_dispatch s mem_addr num_recs).tasks =
        s.tasks ++ [⟨TaskPc.atAcquire1, m2, n2⟩]) ∧
    (((timer_dispatch s mem_addr num_recs).lock = s.lock ∧
        (timer_dispatch s mem_addr num_recs).releases = s.releases) ∨
      ((timer_dispatch s mem_addr num_recs).lock = false ∧
        (timer_dispatch s mem_addr num_recs).releases = s.releases + 1)) := by
  unfold timer_dispatch
  split
  · exact manage_get_all_shape s mem_addr num_recs
  · exact manage_get_one_shape s mem_addr num_recs

/-- In a record-free run, exactly four states are reachable: the initial
state, the state after the first gate acquisition and bulk send, the state
after the watchdog is scheduled, and the stuck state after the single
watchdog firing. -/
theorem reachNR_enum (s : DevSys) (h : ReachNR s) :
    s = devInit ∨ s = devS1 ∨ s = devS2 ∨ s = devS3 := by
  induction h with
  | init => exact Or.inl rfl
  | step s s' hr hstep ih =>
    rcases ih with h0 | h0 | h0 | h0 <;> subst h0
    · cases hstep with
      | acquire1 i t hget hpc hlock =>
        obtain ⟨hi, ht⟩ := get?_singleton _ i t hget
        subst hi
        subst ht
        right; left
        decide
      | sendReturn i t hget hpc =>
        obtain ⟨hi, ht⟩ := get?_singleton _ i t hget
        subst ht
        exact absurd hpc (by decide)
      | acquire2 i t hget hpc hlock =>
        obtain ⟨hi, ht⟩ := get?_singleton _ i t hget
        subst ht
        exact absurd hpc (by decide)
      | timerFire j mn hget => exact Option.noConfusion hget
    · cases hstep with
      | acquire1 i t hget hpc hlock =>
        obtain ⟨hi, ht⟩ := get?_singleton _ i t hget
        subst ht
        exact absurd hpc (by decide)
      | sendReturn i t hget hpc =>
        obtain ⟨hi, ht⟩ := get?_singleton _ i t hget
        subst hi
        subst ht
        right; right; left
        decide
      | acquire2 i t hget hpc hlock =>
        obtain ⟨hi, ht⟩ := get?_singleton _ i t hget
        subst ht
        exact absurd hpc (by decide)
      | timerFire j mn hget => exact Option.noConfusion hget
    · cases hstep with
      | acquire1 i t hget hpc hlock => exact absurd hlock (by decide)
      | sendReturn i t hget hpc =>
        obtain ⟨hi, ht⟩ := get?_singleton _ i t hget
        subst ht
        exact absurd hpc (by decide)
      | acquire2 i t hget hpc hlock => exact absurd hlock (by decide)
      | timerFire j mn hget =>
        obtain ⟨hj, hmn⟩ := get?_singleton _ j mn hget
        subst hj
        subst hmn
        right; right; right
        decide
    · cases hstep with
      | acquire1 i t hget hpc hlock => exact absurd hlock (by decide)
      | sendReturn i t hget hpc =>
        rcases get?_pair _ _ i t hget with ht | ht <;> subst ht <;>
          exact absurd hpc (by decide)
      | acquire2 i t hget hpc hlock => exact absurd hlock (by decide)
      | timerFire j mn hget => exact Option.noConfusion hget

/-- C2 (code bug): in a bulk-read sequence that never receives any record,
every reachable state of the manager has the completion gate unreleased,
the bulk retry counter at most 1 and the single-record counter at 0, with
the mirror not loaded: the watchdog's re-issued `read()` parks a new
`async_read` task at the completion gate still held by the original
sequence, so no further send, watchdog or retry ever happens — the
claimed exhaustion of the 5-attempt bulk budget, the switch to
single-record reads, and the terminating gate release never occur. -/
theorem claim_C2_bulk_read_stalls (s : DevSys) (h : ReachNR s) :
    s.releases = 0 ∧ s.mgr.retries_all ≤ 1 ∧ s.mgr.retries_one = 0 ∧
      s.mgr.aldb.calc_load_status = false := by
  rcases reachNR_enum s h with h0 | h0 | h0 | h0 <;> subst h0 <;> decide

/-- Witness for C2 at the initial state. -/
theorem claim_C2_witness :
    devInit.releases = 0 ∧ devInit.mgr.retries_all ≤ 1 ∧
      devInit.mgr.retries_one = 0 ∧
      devInit.mgr.aldb.calc_load_status = false :=
  claim_C2_bulk_read_stalls devInit ReachNR.init

/-- C3: after any sequence of record deliveries to a consistent device
mirror, every present key maps to a record whose own `mem_addr` is that
key; and record delivery is the only mutation path into the mirror — every
scheduler step of the operational model leaves the mirror unchanged. -/
theorem claim_C3_mirror_key_consistency (a : ALDB) (rs : List ALDBRecord)
    (h : consistent a = true) :
    consistent (deliver_all a rs) = true ∧
      (∀ (s s' : DevSys), DevStep s DevEvent.sched s' →
        s'.mgr.aldb = s.mgr.aldb) := by
  refine ⟨consistent_deliver_all a rs h, ?_⟩
  intro s s' hstep
  cases hstep with
  | acquire1 i t hget hpc hlock => rfl
  | sendReturn i t hget hpc => rfl
  | acquire2 i t hget hpc hlock => rfl
  | timerFire j mn hget => exact timer_dispatch_aldb _ _ _

/-- Witness for C3: records delivered to an empty mirror, with a duplicate
overwrite. -/
theorem claim_C3_witness :
    consistent (deliver_all ⟨[], 0xfff⟩
        [recAt 0xfff, recAt 0xff7, recAt 0xfff]) = true ∧
      (∀ (s s' : DevSys), DevStep s DevEvent.sched s' →
        s'.mgr.aldb = s.mgr.aldb) :=
  claim_C3_mirror_key_consistency ⟨[], 0xfff⟩
    [recAt 0xfff, recAt 0xff7, recAt 0xfff] (by decide)

/-- C4: the completion gate admits one read sequence at a time: (i) a step
that moves a task past the first gate acquisition can only happen when the
gate is free — a second `async_read` issued while a sequence holds the gate
stays suspended at its first acquire; and (ii) the gate only becomes free
through a release performed by the holding sequence. -/
theorem claim_C4_single_sequence_gate :
    (∀ (s : DevSys) (e : DevEvent) (s' : DevSys), DevStep s e s' →
      ∀ (i : Nat) (t t' : RTask), s.tasks.get? i = some t →
        t.pc = TaskPc.atAcquire1 → s'.tasks.get? i = some t' →
        t'.pc ≠ TaskPc.atAcquire1 → s.lock = false) ∧
    (∀ (s : DevSys) (e : DevEvent) (s' : DevSys), DevStep s e s' →
      s.lock = true → s'.lock = false → s'.releases = s.releases + 1) := by
  constructor
  · intro s e s' hstep i t t' hget hpc hget' hne
    cases hstep with
    | acquire1 i0 t0 hget0 hpc0 hlock => exact hlock
    | sendReturn i0 t0 hget0 hpc0 =>
      by_cases hii : i0 = i
      · subst hii
        have ht0 : t = t0 := Option.some.inj (hget.symm.trans hget0)
        rw [ht0, hpc0] at hpc
        exact absurd hpc (by decide)
      · rw [List.get?_set_ne _ _ hii] at hget'
        have ht' : t' = t := Option.some.inj (hget'.symm.trans hget)
        exact absurd (by rw [ht', hpc]) hne
    | acquire2 i0 t0 hget0 hpc0 hlock => exact hlock
    | timerFire j mn hget0 =>
      rcases (timer_dispatch_shape { s with timers := s.timers.eraseIdx j }
          mn.1 mn.2).1 with hT | ⟨m2, n2, hT⟩
      · rw [hT] at hget'
        have ht' : t' = t := Option.some.inj (hget'.symm.trans hget)
        exact absurd (by rw [ht', hpc]) hne
      · rw [hT] at hget'
        obtain ⟨hlt, _⟩ := List.get?_eq_some.mp hget
        rw [List.get?_append hlt] at hget'
        have ht' : t' = t := Option.some.inj (hget'.symm.trans hget)
        exact absurd (by rw [ht', hpc]) hne
    | recvRecord record =>
      have ht' : t' = t := Option.some.inj (hget'.symm.trans hget)
      exact absurd (by rw [ht', hpc]) hne
  · intro s e s' hstep hl hl'
    cases hstep with
    | acquire1 i0 t0 hget0 hpc0 hlock => exact absurd hl (by rw [hlock]; decide)
    | sendReturn i0 t0 hget0 hpc0 =>
      have : s.lock = false := hl'
      rw [hl] at this
      exact Bool.noConfusion this
    | acquire2 i0 t0 hget0 hpc0 hlock => exact absurd hl (by rw [hlock]; decide)
    | timerFire j mn hget0 =>
      rcases (timer_dispatch_shape { s with timers := s.timers.eraseIdx j }
          mn.1 mn.2).2 with ⟨hL, hR⟩ | ⟨hL, hR⟩
      · rw [hl'] at hL
        rw [← hL] at hl
        exact Bool.noConfusion hl
      · exact hR
    | recvRecord record =>
      have : s.lock = false := hl'
      rw [hl] at this
      exact Bool.noConfusion this

/-- The first scheduler step from the initial state: the caller's task is
granted the gate. -/
theorem devStep_init_s1 : DevStep devInit DevEvent.sched devS1 := by
  have h := DevStep.acquire1 devInit 0 ⟨TaskPc.atAcquire1, 0, 0⟩ rfl rfl rfl
  have he : devS1 =
      { devInit with
        lock := true
        tasks := devInit.tasks.set 0
          { (⟨TaskPc.atAcquire1, 0, 0⟩ : RTask) with pc := TaskPc.atSend }
        mgr := { devInit.mgr with
          last_command := some (if (0 : Int) = 0 ∧ (0 : Int) = 0 then
            LastCmd.read_all else LastCmd.read_one) } } := by
    decide
  rw [he]
  exact h

/-- Witness for C4: the initial acquire step certifies that the gate was
free when the caller's task passed its first acquisition. -/
theorem claim_C4_witness : devInit.lock = false :=
  claim_C4_single_sequence_gate.1 devInit DevEvent.sched devS1
    devStep_init_s1 0 ⟨TaskPc.atAcquire1, 0, 0⟩ ⟨TaskPc.atSend, 0, 0⟩
    rfl rfl rfl (by decide)

/-! ### Operating-flags manager (`managers/get_set_op_flag_manager.py`) -/

def MAX_RETRIES : Nat := 5

/-- Modelled from the spec: an operating-flag value object carries `value`
(last confirmed) and `new_value` (pending write); the flag class itself is
not in the source set. -/
structure OperatingFlag where
  value : Bool
  new_value : Bool
deriving DecidableEq, Repr

/-- Modelled from the spec: the dirty predicate is `new_value != value`. -/
def OperatingFlag.is_dirty (f : OperatingFlag) : Bool :=
  f.new_value != f.value

/-- Modelled from the spec: `flag.load(v)` commits `v` as the confirmed
value and clears the pending value. -/
def OperatingFlag.load (f : OperatingFlag) (v : Bool) : OperatingFlag :=
  { value := v, new_value := v }

/-- The registry binding of one named flag (the `OperatingFlagInfo`
namedtuple of the source): group, optional bit, and the bit-set /
bit-clear command codes (`none` models an unbound command). -/
structure OperatingFlagInfo where
  name : String
  group : Nat
  bit : Option Nat
  set_cmd : Option Nat
  unset_cmd : Option Nat
deriving DecidableEq, Repr

/-- The bounded retry loop of `_async_read` / `_async_write`:
`retries = 0`, `result = UNSENT`, then `while retries < MAX_RETRIES and
result != ResponseStatus.SUCCESS: result = send(retries); retries += 1`.
The fuel argument only bounds the recursion; entering with fuel
`MAX_RETRIES` is exact, because every iteration increments `retries` and
the guard needs `retries < MAX_RETRIES`, so the guard fails no later than
the fuel runs out. -/
def retry_go (send : Nat → ResponseStatus) :
    Nat → Nat → ResponseStatus → ResponseStatus × Nat
  | 0, retries, result => (result, retries)
  | fuel + 1, retries, result =>
    if retries < MAX_RETRIES ∧ result ≠ ResponseStatus.success then
      retry_go send fuel (retries + 1) (send retries)
    else (result, retries)

/-- The retry loop from its initial state; returns the final result and
the number of send attempts made. -/
def retry_loop (send : Nat → ResponseStatus) : ResponseStatus × Nat :=
  retry_go send MAX_RETRIES 0 ResponseStatus.unsent

/-- Embedding of the per-flag step of `GetSetOperatingFlagsManager`'s
write path (`async_write` + `_async_write`): a write is attempted only
when the flag is dirty; the command is `set_cmd` when the pending value is
truthy, else `unset_cmd`; with a bound command the retry loop runs and on
`SUCCESS` the pending value is committed via `flag.load(flag.new_value)`;
with no bound command the flag is reset via `flag.load(flag.value)` and
`SUCCESS` is reported without sending.  Returns the updated flag and
`some (result, attempts)` when `_async_write` ran, `none` when the flag
was clean and skipped. -/
def async_write_flag (flag : OperatingFlag) (info : OperatingFlagInfo)
    (send : Nat → ResponseStatus) :
    OperatingFlag × Option (ResponseStatus × Nat) :=
  if flag.is_dirty then
    match (if flag.new_value then info.set_cmd else info.unset_cmd) with
    | some _ =>
      let r := retry_loop send
      (if r.1 = ResponseStatus.success then flag.load flag.new_value
        else flag,
        some (r.1, r.2))
    | none => (flag.load flag.value, some (ResponseStatus.success, 0))
  else (flag, none)

/-- Embedding of `GetSetOperatingFlagsManager.async_write`: iterate over
the named flags, writing only the dirty ones. -/
def async_write (flags : List (String × OperatingFlag))
    (info_of : String → OperatingFlagInfo)
    (send_of : String → Nat → ResponseStatus) :
    List (String × OperatingFlag) :=
  flags.map (fun p => (p.1, (async_write_flag p.2 (info_of p.1) (send_of p.1)).1))

theorem retry_go_success (send : Nat → ResponseStatus) (fuel retries : Nat) :
    retry_go send fuel retries ResponseStatus.success =
      (ResponseStatus.success, retries) := by
  cases fuel with
  | zero => rfl
  | succ n => simp [retry_go]

theorem retry_go_bound (send : Nat → ResponseStatus) (fuel retries : Nat)
    (result : ResponseStatus) :
    (retry_go send fuel retries result).2 ≤ retries + fuel := by
  induction fuel generalizing retries result with
  | zero => simp [retry_go]
  | succ n ih =>
    rw [retry_go]
    by_cases hg : retries < MAX_RETRIES ∧ result ≠ ResponseStatus.success
    · rw [if_pos hg]
      have := ih (retries + 1) (send retries)
      omega
    · rw [if_neg hg]
      omega

theorem retry_go_no_send_after_success (send : Nat → ResponseStatus)
    (fuel retries : Nat) (result : ResponseStatus) (i : Nat)
    (hi : retries ≤ i)
    (hlt : i + 1 < (retry_go send fuel retries result).2) :
    send i ≠ ResponseStatus.success := by
  induction fuel generalizing retries result with
  | zero =>
    simp [retry_go] at hlt
    omega
  | succ n ih =>
    rw [retry_go] at hlt
    by_cases hg : retries < MAX_RETRIES ∧ result ≠ ResponseStatus.success
    · rw [if_pos hg] at hlt
      by_cases hri : retries = i
      · subst hri
        intro hsend
        rw [hsend, retry_go_success] at hlt
        omega
      · exact ih (retries + 1) (send retries) (by omega) hlt
    · rw [if_neg hg] at hlt
      omega

/-- C8: the flag write path issues a set/clear command only for dirty
flags (a clean flag is untouched and nothing is sent); for a dirty flag
the retry loop makes at most 5 attempts and never sends again after a
success; when the loop reports `SUCCESS` with a bound command, the pending
value is committed as confirmed and the flag is clean; and a dirty flag
with no bound write command is reset to its confirmed value with `SUCCESS`
reported and no command sent. -/
theorem claim_C8_flag_write (flag : OperatingFlag) (info : OperatingFlagInfo)
    (send : Nat → ResponseStatus) :
    (flag.is_dirty = false →
      async_write_flag flag info send = (flag, none)) ∧
    (∀ (res : ResponseStatus) (n : Nat),
      (async_write_flag flag info send).2 = some (res, n) →
        n ≤ MAX_RETRIES ∧
          ∀ i, i + 1 < n → send i ≠ ResponseStatus.success) ∧
    (flag.is_dirty = true →
      (if flag.new_value then info.set_cmd else info.unset_cmd).isSome
        = true →
      (retry_loop send).1 = ResponseStatus.success →
        (async_write_flag flag info send).1 = flag.load flag.new_value ∧
        (async_write_flag flag info send).1.is_dirty = false ∧
        (async_write_flag flag info send).1.value = flag.new_value ∧
        (async_write_flag flag info send).2 =
          some (ResponseStatus.success, (retry_loop send).2)) ∧
    (flag.is_dirty = true → info.set_cmd = none → info.unset_cmd = none →
      async_write_flag flag info send =
        (flag.load flag.value, some (ResponseStatus.success, 0))) := by
  refine ⟨?_, ?_, ?_, ?_⟩
  · intro hd
    unfold async_write_flag
    simp [hd]
  · intro res n hr
    unfold async_write_flag at hr
    by_cases hd : flag.is_dirty = true
    · rw [if_pos hd] at hr
      cases hc : (if flag.new_value then info.set_cmd else info.unset_cmd) with
      | some c =>
        rw [hc] at hr
        have h2 := Option.some.inj hr
        have hn : n = (retry_loop send).2 := (congrArg Prod.snd h2).symm
        subst hn
        constructor
        · have := retry_go_bound send MAX_RETRIES 0 ResponseStatus.unsent
          simpa [retry_loop] using this
        · intro i hi
          exact retry_go_no_send_after_success send MAX_RETRIES 0
            ResponseStatus.unsent i (Nat.zero_le i) hi
      | none =>
        rw [hc] at hr
        have h2 := Option.some.inj hr
        have hn : n = 0 := (congrArg Prod.snd h2).symm
        subst hn
        exact ⟨Nat.zero_le _, fun i hi => absurd hi (by omega)⟩
    · rw [if_neg hd] at hr
      exact Option.noConfusion hr
  · intro hd hc hsucc
    unfold async_write_flag
    rw [if_pos hd]
    cases hcc : (if flag.new_value then info.set_cmd else info.unset_cmd) with
    | none =>
      rw [hcc] at hc
      exact absurd hc (by simp)
    | some c =>
      refine ⟨by simp [hsucc], by simp [hsucc, OperatingFlag.load,
        OperatingFlag.is_dirty], by simp [hsucc, OperatingFlag.load],
        by simp [hsucc]⟩
  · intro hd h1 h2
    unfold async_write_flag
    rw [if_pos hd]
    have hc : (if flag.new_value then info.set_cmd else info.unset_cmd)
        = none := by
      cases flag.new_value <;> simp [h1, h2]
    rw [hc]

/-- A dirty flag for the C8 witness: confirmed `False`, pending `True`. -/
def w8flag : OperatingFlag := ⟨false, true⟩

/-- A binding with a bound set command for the C8 witness. -/
def w8info : OperatingFlagInfo := ⟨"led", 3, some 2, some 8, some 9⟩

/-- A send oracle whose first attempt succeeds. -/
def w8send : Nat → ResponseStatus := fun _ => ResponseStatus.success

/-- Witness for C8: the dirty flag with a bound set command and a
succeeding send commits the pending value and ends clean. -/
theorem claim_C8_witness :
    (async_write_flag w8flag w8info w8send).1 = w8flag.load w8flag.new_value ∧
      (async_write_flag w8flag w8info w8send).1.is_dirty = false ∧
      (async_write_flag w8flag w8info w8send).1.value = w8flag.new_value ∧
      (async_write_flag w8flag w8info w8send).2 =
        some (ResponseStatus.success, (retry_loop w8send).2) :=
  (claim_C8_flag_write w8flag w8info w8send).2.2.1 (by decide) (by decide)
    (by decide)

/-! ### Inbound register decode (`_update_flags`) -/

/-- Value held by an operating-flag object: a decoded bit for a
bit-binding, or a whole register value for a register-binding. -/
inductive FlagValue where
  | b (v : Bool)
  | n (v : Nat)
deriving DecidableEq, Repr

/-- One entry of `self._groups`: `subscribe` stores a dict keyed by bit
for bit-bindings, and overwrites the group entry with the
`OperatingFlagInfo` itself for a whole-register binding. -/
inductive GroupBinding where
  | bits (m : List (Nat × OperatingFlagInfo))
  | whole (info : OperatingFlagInfo)
deriving DecidableEq, Repr

/-- Registry state of `GetSetOperatingFlagsManager` used by
`_update_flags`: the group registry and the named flag objects. -/
structure FlagMgr where
  groups : List (Nat × GroupBinding)
  op_flags : List (String × FlagValue)
deriving DecidableEq, Repr

/-- Lookup `self._groups.get(group)`. -/
def lookupGroup (gs : List (Nat × GroupBinding)) (g : Nat) :
    Option GroupBinding :=
  (gs.find? (fun p => p.1 == g)).map Prod.snd

/-- Lookup a named flag object. -/
def lookupFlag (fs : List (String × FlagValue)) (nm : String) :
    Option FlagValue :=
  (fs.find? (fun p => p.1 == nm)).map Prod.snd

/-- In-place `self._op_flags[name].load(v)`. -/
def loadFlag (fs : List (String × FlagValue)) (nm : String) (v : FlagValue) :
    List (String × FlagValue) :=
  fs.map (fun p => if p.1 = nm then (p.1, v) else p)

/-- Decode of one bit binding: `bool(flags & 1 << flag_info.bit)`. -/
def decode_bit (raw : Nat) (bit : Nat) : Bool :=
  raw &&& (1 <<< bit) ≠ 0

/-- Embedding of `GetSetOperatingFlagsManager._update_flags`.  A missing
group — or a falsy one, i.e. an empty bit dict — returns at once.  A bit
dict loads, for each binding, the boolean decode of the raw value at the
binding's own bit (bindings stored in the bit dict always carry an actual
bit; `subscribe` only files them there in that case, so the `getD` default
is never taken for registry states built by `subscribe`).  A
whole-register binding loads the raw value itself into the named flag —
and then the source falls into `for bit in self._groups[group]`, which
iterates the fields of the namedtuple and indexes the namedtuple with a
field value: a `TypeError` raised after the load already happened (the
returned flag records the raised error; the mutation is not rolled back). -/
def update_flags (mgr : FlagMgr) (group : Nat) (raw : Nat) :
    FlagMgr × Bool :=
  match lookupGroup mgr.groups group with
  | none => (mgr, false)
  | some (GroupBinding.bits m) =>
    if m.isEmpty then (mgr, false)
    else
      ({ mgr with op_flags := m.foldl (fun fs p =>
          loadFlag fs p.2.name
            (FlagValue.b (decode_bit raw (p.2.bit.getD 0)))) mgr.op_flags },
        false)
  | some (GroupBinding.whole info) =>
    ({ mgr with op_flags :=
        loadFlag mgr.op_flags info.name (FlagValue.n raw) },
      true)

theorem lookupFlag_loadFlag (fs : List (String × FlagValue))
    (nm nm2 : String) (v : FlagValue) :
    lookupFlag (loadFlag fs nm v) nm2 =
      (lookupFlag fs nm2).map (fun old => if nm2 = nm then v else old) := by
  induction fs with
  | nil => rfl
  | cons p t ih =>
    unfold loadFlag at ih ⊢
    unfold lookupFlag at ih ⊢
    by_cases hp2 : p.1 = nm2
    · subst hp2
      by_cases hpn : p.1 = nm
      · rw [List.map_cons, if_pos hpn,
          List.find?_cons_of_pos _ (by simp),
          List.find?_cons_of_pos _ (by simp)]
        simp [hpn]
      · rw [List.map_cons, if_neg hpn,
          List.find?_cons_of_pos _ (by simp),
          List.find?_cons_of_pos _ (by simp)]
        simp [hpn]
    · have hskip : ((if p.1 = nm then (p.1, v) else p).1 == nm2) = false := by
        by_cases hpn : p.1 = nm
        · rw [if_pos hpn]
          simp [hp2]
        · rw [if_neg hpn]
          simp [hp2]
      rw [List.map_cons,
        List.find?_cons_of_neg _ (by simp [hskip]),
        List.find?_cons_of_neg _ (by simp [hp2])]
      exact ih

theorem lookupFlag_loadFlag_self (fs : List (String × FlagValue))
    (nm : String) (v : FlagValue) (h : lookupFlag fs nm ≠ none) :
    lookupFlag (loadFlag fs nm v) nm = some v := by
  rw [lookupFlag_loadFlag]
  cases hx : lookupFlag fs nm with
  | none => exact absurd hx h
  | some old => simp

theorem lookupFlag_loadFlag_ne (fs : List (String × FlagValue))
    (nm nm2 : String) (v : FlagValue) (h : nm2 ≠ nm) :
    lookupFlag (loadFlag fs nm v) nm2 = lookupFlag fs nm2 := by
  rw [lookupFlag_loadFlag]
  cases hx : lookupFlag fs nm2 with
  | none => rfl
  | some old => simp [h]

/-- Folding further loads over names different from `nm` does not change
the flag at `nm`. -/
theorem foldl_load_untouched (raw : Nat)
    (t : List (Nat × OperatingFlagInfo)) (fs : List (String × FlagValue))
    (nm : String) (hn : ∀ q ∈ t, q.2.name ≠ nm) :
    lookupFlag (t.foldl (fun fs2 p =>
        loadFlag fs2 p.2.name
          (FlagValue.b (decode_bit raw (p.2.bit.getD 0)))) fs) nm =
      lookupFlag fs nm := by
  induction t generalizing fs with
  | nil => rfl
  | cons p t2 ih =>
    rw [List.foldl_cons, ih _ (fun q hq => hn q (List.mem_cons_of_mem _ hq))]
    exact lookupFlag_loadFlag_ne _ _ _ _
      (fun he => hn p (List.mem_cons_self p t2) he.symm)

/-- After the bit-dict fold, every binding's flag holds the decode of its
own bit (given distinct flag names and an existing flag object). -/
theorem foldl_load_lookup (raw : Nat) (m : List (Nat × OperatingFlagInfo))
    (fs : List (String × FlagValue)) (k : Nat) (info : OperatingFlagInfo)
    (hmem : (k, info) ∈ m)
    (hnd : (m.map (fun p => p.2.name)).Nodup)
    (hex : lookupFlag fs info.name ≠ none) :
    lookupFlag (m.foldl (fun fs2 p =>
        loadFlag fs2 p.2.name
          (FlagValue.b (decode_bit raw (p.2.bit.getD 0)))) fs) info.name =
      some (FlagValue.b (decode_bit raw (info.bit.getD 0))) := by
  induction m generalizing fs with
  | nil => exact absurd hmem (List.not_mem_nil _)
  | cons p t ih =>
    rw [List.foldl_cons]
    rw [List.map_cons] at hnd
    obtain ⟨hnotin, hndt⟩ := List.nodup_cons.mp hnd
    rcases List.mem_cons.mp hmem with heq | hmem2
    · have hp : p = (k, info) := heq.symm
      subst hp
      have hnames : ∀ q ∈ t, q.2.name ≠ info.name := by
        intro q hq hqe
        exact hnotin (List.mem_map.mpr ⟨q, hq, hqe⟩)
      rw [foldl_load_untouched raw t _ info.name hnames]
      exact lookupFlag_loadFlag_self fs info.name _ hex
    · have hne : info.name ≠ p.2.name := by
        intro he
        exact hnotin (List.mem_map.mpr ⟨(k, info), hmem2, he⟩)
      refine ih _ hmem2 hndt ?_
      rw [lookupFlag_loadFlag_ne _ _ _ _ hne]
      exact hex

/-- The source's decode `bool(flags & 1 << bit)` agrees with the claim's
formula `(raw >> bit) & 1`. -/
theorem decode_bit_eq_shift (raw b : Nat) :
    decode_bit raw b = decide (((raw >>> b) &&& 1) = 1) := by
  unfold decode_bit
  rw [Nat.shiftLeft_eq, one_mul]
  have h1 := Nat.and_two_pow raw b
  have h2 : raw.testBit b = decide (raw / 2 ^ b % 2 = 1) :=
    Nat.testBit_to_div_mod
  have h3 : (raw >>> b) &&& 1 = raw / 2 ^ b % 2 := by
    rw [Nat.and_one_is_mod, Nat.shiftRight_eq_div_pow]
  rw [h3]
  have hpow : 0 < 2 ^ b := pow_pos (by norm_num) b
  cases hb : raw.testBit b with
  | true =>
    rw [hb] at h1 h2
    have h4 : raw / 2 ^ b % 2 = 1 := of_decide_eq_true h2.symm
    have h5 : raw &&& 2 ^ b ≠ 0 := by
      rw [h1]
      simp only [Bool.toNat_true, one_mul]
      omega
    simp [h5, h4]
  | false =>
    rw [hb] at h1 h2
    have h4 : ¬(raw / 2 ^ b % 2 = 1) := of_decide_eq_false h2.symm
    have h5 : raw &&& 2 ^ b = 0 := by
      rw [h1]
      simp
    simp [h5, h4]

/-- C9: for every inbound register value delivered for a group, each bit
binding registered for that group is set to the boolean `(raw >> bit) & 1`
(given distinct binding names and an existing flag object), and a
whole-register binding for the group is loaded with the raw value directly
(the load takes effect even though the source then raises a `TypeError`
iterating the namedtuple — the model's error flag; the mutation is not
rolled back). -/
theorem claim_C9_register_decode (mgr : FlagMgr) (group raw : Nat) :
    (∀ (m : List (Nat × OperatingFlagInfo)) (k : Nat)
        (info : OperatingFlagInfo) (b : Nat),
      lookupGroup mgr.groups group = some (GroupBinding.bits m) →
      (k, info) ∈ m → info.bit = some b →
      (m.map (fun p => p.2.name)).Nodup →
      lookupFlag mgr.op_flags info.name ≠ none →
      lookupFlag (update_flags mgr group raw).1.op_flags info.name =
        some (FlagValue.b (decide (((raw >>> b) &&& 1) = 1)))) ∧
    (∀ (info : OperatingFlagInfo),
      lookupGroup mgr.groups group = some (GroupBinding.whole info) →
      lookupFlag mgr.op_flags info.name ≠ none →
      lookupFlag (update_flags mgr group raw).1.op_flags info.name =
        some (FlagValue.n raw)) := by
  constructor
  · intro m k info b hg hmem hbit hnd hex
    have hne : m.isEmpty = false := by
      cases m with
      | nil => exact absurd hmem (List.not_mem_nil _)
      | cons q t => rfl
    have hgetd : info.bit.getD 0 = b := by
      rw [hbit]
      rfl
    have hfold := foldl_load_lookup raw m mgr.op_flags k info hmem hnd hex
    rw [hgetd, decode_bit_eq_shift] at hfold
    simp only [update_flags, hg, hne]
    simpa using hfold
  · intro info hg hex
    simp only [update_flags, hg]
    simpa using
      lookupFlag_loadFlag_self mgr.op_flags info.name (FlagValue.n raw) hex

/-- Bit binding at bit 2 for the C9 witness. -/
def w9beeper : OperatingFlagInfo := ⟨"beeper", 1, some 2, none, none⟩

/-- Bit binding at bit 3 for the C9 witness. -/
def w9wake : OperatingFlagInfo := ⟨"wake", 1, some 3, none, none⟩

/-- Whole-register binding for the C9 witness. -/
def w9ramp : OperatingFlagInfo := ⟨"ramp", 2, none, none, none⟩

/-- Registry for the C9 witness: group 1 carries bit bindings at bits 2
and 3. -/
def w9mgr : FlagMgr :=
  { groups := [(1, GroupBinding.bits [(2, w9beeper), (3, w9wake)])],
    op_flags := [("beeper", FlagValue.b false), ("wake", FlagValue.b true)] }

/-- Registry for the C9 witness, whole-register variant. -/
def w9mgr2 : FlagMgr :=
  { groups := [(2, GroupBinding.whole w9ramp)],
    op_flags := [("ramp", FlagValue.n 0)] }

/-- Witness for C9 at the spec's example: raw value 4 = 0b100 decodes the
bit-2 binding to the decode of bit 2 (true) and the bit-3 binding to the
decode of bit 3 (false); a whole-register binding receives the raw value. -/
theorem claim_C9_witness :
    lookupFlag (update_flags w9mgr 1 4).1.op_flags w9beeper.name =
        some (FlagValue.b (decide (((4 >>> 2) &&& 1) = 1))) ∧
      lookupFlag (update_flags w9mgr 1 4).1.op_flags w9wake.name =
        some (FlagValue.b (decide (((4 >>> 3) &&& 1) = 1))) ∧
      lookupFlag (update_flags w9mgr2 2 77).1.op_flags w9ramp.name =
        some (FlagValue.n 77) :=
  ⟨(claim_C9_register_decode w9mgr 1 4).1 [(2, w9beeper), (3, w9wake)] 2
      w9beeper 2 rfl (by decide) rfl (by decide) (by decide),
    (claim_C9_register_decode w9mgr 1 4).1 [(2, w9beeper), (3, w9wake)] 3
      w9wake 3 rfl (by decide) rfl (by decide) (by decide),
    (claim_C9_register_decode w9mgr2 2 77).2 w9ramp rfl (by decide)⟩

end Pyinsteon
